import Mathlib

/-!
Verification development for the node-webrtc transcription bot.

Shallow embedding of the claim-relevant parts of the source:
* `AudioBuffer` (audio capture chunking, from the AudioBuffer class),
* `resampleAudio` and the fixed-ratio resamplers,
* `ParticipantTracker` (speaker attribution),
* the `PexipConnection` orchestrator's ICE-candidate queueing,
  token-refresh scheduling and disconnect sequencing, and the
  `PexipApiClient` best-effort cleanup calls.

JavaScript numbers are embedded as `Nat`/`Int`/`Rat` with exact
arithmetic.  Where the source floors a floating-point product
(`Math.floor(x * 0.25)`, `Math.floor(n * 1.5)`, fixed-ratio index
computations) the factor is exactly representable in binary floating
point, so the exact integer floor used here agrees with the source for
every realistic magnitude; the relevant agreement is noted at each
definition.
-/

namespace TranscriptionBot

/-! ### AudioBuffer (audio capture pipeline)

Embedding of the `AudioBuffer` class: `buffer` is the pending sample
list, `targetSamples` the chunk length, `chunksCreated` the statistics
counter that numbers emitted chunks.  File-saving and timing-only
statistics (`startTime`, `lastChunkTime`, wall-clock timestamps) have no
bearing on the chunking contract and are omitted. -/

structure AudioChunkData where
  samples : List Int
  sampleRate : Nat
  chunkNumber : Nat
  isFinal : Bool
  deriving Repr, DecidableEq

structure AudioBuffer where
  sampleRate : Nat
  targetDurationMs : Nat
  targetSamples : Nat
  buffer : List Int
  chunksCreated : Nat
  totalSamples : Nat
  deriving Repr, DecidableEq

/-- Constructor: `targetSamples = Math.floor(sampleRate * (targetDurationMs / 1000))`.
The floating-point product is embedded as exact natural floor division;
for the configurations used by the bot (1000 ms at 16/24/48 kHz) the two
agree exactly. -/
def AudioBuffer.mk0 (sampleRate targetDurationMs : Nat) : AudioBuffer :=
  { sampleRate := sampleRate
    targetDurationMs := targetDurationMs
    targetSamples := sampleRate * targetDurationMs / 1000
    buffer := []
    chunksCreated := 0
    totalSamples := 0 }

/-- `createChunk()`: splice the first `targetSamples` samples out of the
buffer into a chunk; `chunksCreated` is incremented first and used as the
chunk number. -/
def AudioBuffer.createChunk (b : AudioBuffer) : AudioChunkData × AudioBuffer :=
  ({ samples := b.buffer.take b.targetSamples
     sampleRate := b.sampleRate
     chunkNumber := b.chunksCreated + 1
     isFinal := false },
   { b with
     buffer := b.buffer.drop b.targetSamples
     chunksCreated := b.chunksCreated + 1 })

/-- `addSamples(samples)`: append to the buffer, bump the sample count,
and emit one chunk via `createChunk` when the buffered length has reached
`targetSamples` (a single `if`, so at most one chunk per call). -/
def AudioBuffer.addSamples (b : AudioBuffer) (samples : List Int) :
    Option AudioChunkData × AudioBuffer :=
  let b1 : AudioBuffer :=
    { b with
      buffer := b.buffer ++ samples
      totalSamples := b.totalSamples + samples.length }
  if b1.targetSamples ≤ b1.buffer.length then
    let cb := b1.createChunk
    (some cb.1, cb.2)
  else
    (none, b1)

/-- `flush()`: if the buffer is non-empty, emit its entire contents as a
final chunk (numbered `chunksCreated + 1` without incrementing the
counter, as in the source) and clear the buffer; otherwise return null. -/
def AudioBuffer.flush (b : AudioBuffer) : Option AudioChunkData × AudioBuffer :=
  if 0 < b.buffer.length then
    (some { samples := b.buffer
            sampleRate := b.sampleRate
            chunkNumber := b.chunksCreated + 1
            isFinal := true },
     { b with buffer := [] })
  else
    (none, b)

/-- Driving loop: deliver a sequence of `addSamples` calls, collecting
the emitted chunks in order. -/
def AudioBuffer.feed (b : AudioBuffer) : List (List Int) → List AudioChunkData × AudioBuffer
  | [] => ([], b)
  | s :: rest =>
    match b.addSamples s with
    | (none, b1) => b1.feed rest
    | (some c, b1) =>
      let r := b1.feed rest
      (c :: r.1, r.2)

theorem AudioBuffer.addSamples_of_lt (b : AudioBuffer) (xs : List Int)
    (h : b.buffer.length + xs.length < b.targetSamples) :
    b.addSamples xs =
      (none, { b with buffer := b.buffer ++ xs,
                      totalSamples := b.totalSamples + xs.length }) := by
  simp only [AudioBuffer.addSamples]
  rw [if_neg]
  simp only [List.length_append]
  omega

theorem AudioBuffer.addSamples_of_ge (b : AudioBuffer) (xs : List Int)
    (h : b.targetSamples ≤ b.buffer.length + xs.length) :
    b.addSamples xs =
      (some { samples := (b.buffer ++ xs).take b.targetSamples
              sampleRate := b.sampleRate
              chunkNumber := b.chunksCreated + 1
              isFinal := false },
       { b with buffer := (b.buffer ++ xs).drop b.targetSamples
                chunksCreated := b.chunksCreated + 1
                totalSamples := b.totalSamples + xs.length }) := by
  simp only [AudioBuffer.addSamples, AudioBuffer.createChunk]
  rw [if_pos]
  simp only [List.length_append]
  omega

/-- Invariant-preservation workhorse for the chunking contract: starting
from a buffer holding fewer than `targetSamples` pending samples and
feeding batches of at most `targetSamples` samples each, the emitted
chunks are full-size, non-final, consecutively numbered, and together
with the final pending buffer carry exactly the input samples in order. -/
theorem AudioBuffer.feed_spec (batches : List (List Int)) (b : AudioBuffer)
    (hb : b.buffer.length < b.targetSamples)
    (hbatch : ∀ s ∈ batches, s.length ≤ b.targetSamples) :
    (b.feed batches).2.targetSamples = b.targetSamples ∧
    (b.feed batches).2.sampleRate = b.sampleRate ∧
    (b.feed batches).2.buffer.length < b.targetSamples ∧
    ((b.feed batches).1.map AudioChunkData.samples).flatten ++ (b.feed batches).2.buffer
      = b.buffer ++ batches.flatten ∧
    (∀ c ∈ (b.feed batches).1,
      c.samples.length = b.targetSamples ∧ c.isFinal = false ∧
      c.sampleRate = b.sampleRate) ∧
    (b.feed batches).1.map AudioChunkData.chunkNumber
      = List.range' (b.chunksCreated + 1) (b.feed batches).1.length ∧
    (b.feed batches).2.chunksCreated
      = b.chunksCreated + (b.feed batches).1.length := by
  induction batches generalizing b with
  | nil =>
    simp [AudioBuffer.feed, hb]
  | cons s rest ih =>
    have hs : s.length ≤ b.targetSamples := hbatch s (by simp)
    have hrest : ∀ u ∈ rest, u.length ≤ b.targetSamples := by
      intro u hu; exact hbatch u (by simp [hu])
    by_cases hcase : b.buffer.length + s.length < b.targetSamples
    · have hstep := b.addSamples_of_lt s hcase
      have hfeed : b.feed (s :: rest)
          = ({ b with buffer := b.buffer ++ s,
                      totalSamples := b.totalSamples + s.length }).feed rest := by
        simp only [AudioBuffer.feed, hstep]
      set b1 : AudioBuffer :=
        { b with buffer := b.buffer ++ s,
                 totalSamples := b.totalSamples + s.length } with hb1
      have hb1len : b1.buffer.length < b1.targetSamples := by
        simp [hb1, List.length_append]; omega
      have hrest1 : ∀ u ∈ rest, u.length ≤ b1.targetSamples := hrest
      obtain ⟨h1, h2, h3, h4, h5, h6, h7⟩ := ih b1 hb1len hrest1
      rw [hfeed]
      refine ⟨h1, h2, h3, ?_, h5, h6, h7⟩
      rw [h4]
      simp [hb1, List.flatten]
    · push_neg at hcase
      have hstep := b.addSamples_of_ge s hcase
      set c0 : AudioChunkData :=
        { samples := (b.buffer ++ s).take b.targetSamples
          sampleRate := b.sampleRate
          chunkNumber := b.chunksCreated + 1
          isFinal := false } with hc0
      set b2 : AudioBuffer :=
        { b with buffer := (b.buffer ++ s).drop b.targetSamples
                 chunksCreated := b.chunksCreated + 1
                 totalSamples := b.totalSamples + s.length } with hb2
      have hfeed : b.feed (s :: rest) = (c0 :: (b2.feed rest).1, (b2.feed rest).2) := by
        simp only [AudioBuffer.feed, hstep]
      have hb2len : b2.buffer.length < b2.targetSamples := by
        simp [hb2, List.length_append]
        omega
      have hrest2 : ∀ u ∈ rest, u.length ≤ b2.targetSamples := hrest
      obtain ⟨h1, h2, h3, h4, h5, h6, h7⟩ := ih b2 hb2len hrest2
      rw [hfeed]
      refine ⟨h1, h2, h3, ?_, ?_, ?_, ?_⟩
      · simp only [List.map_cons, List.flatten_cons, List.append_assoc]
        rw [h4]
        simp only [hb2, hc0]
        rw [← List.append_assoc, List.take_append_drop, List.append_assoc]
      · intro c hc
        rcases List.mem_cons.mp hc with hceq | hcmem
        · subst hceq
          refine ⟨?_, rfl, rfl⟩
          simp [hc0, List.length_take, List.length_append]
          omega
        · simpa [hb2] using h5 c hcmem
      · simp only [List.map_cons, List.length_cons]
        rw [h6]
        simp [hb2, hc0, List.range'_succ]
      · rw [h7]; simp [hb2]; omega

/-- C3 (amended): feeding a total of exactly `N * targetSamples` samples
into one audio-capture buffer, with each `addSamples` call delivering at
most `targetSamples` samples, produces exactly `N` chunks, each holding
exactly `targetSamples` samples, carrying the input samples in order with
no loss or duplication across chunk boundaries, numbered consecutively
`1, 2, ..., N` (strictly increasing), and leaves the buffer empty. -/
theorem c3_chunking_exact (rate ms N : Nat) (batches : List (List Int))
    (hT : 0 < (AudioBuffer.mk0 rate ms).targetSamples)
    (hN : 1 ≤ N)
    (hbatch : ∀ s ∈ batches, s.length ≤ (AudioBuffer.mk0 rate ms).targetSamples)
    (hsum : batches.flatten.length = N * (AudioBuffer.mk0 rate ms).targetSamples) :
    ((AudioBuffer.mk0 rate ms).feed batches).1.length = N ∧
    (∀ c ∈ ((AudioBuffer.mk0 rate ms).feed batches).1,
      c.samples.length = (AudioBuffer.mk0 rate ms).targetSamples ∧ c.isFinal = false) ∧
    (((AudioBuffer.mk0 rate ms).feed batches).1.map AudioChunkData.samples).flatten
      = batches.flatten ∧
    ((AudioBuffer.mk0 rate ms).feed batches).1.map AudioChunkData.chunkNumber
      = List.range' 1 N ∧
    ((AudioBuffer.mk0 rate ms).feed batches).2.buffer = [] := by
  set b0 : AudioBuffer := AudioBuffer.mk0 rate ms with hb0
  have hbuf0 : b0.buffer.length < b0.targetSamples := by
    simpa [hb0, AudioBuffer.mk0] using hT
  obtain ⟨h1, h2, h3, h4, h5, h6, h7⟩ := AudioBuffer.feed_spec batches b0 hbuf0 hbatch
  set T : Nat := b0.targetSamples with hTdef
  set n : Nat := (b0.feed batches).1.length with hn
  have hjoin : (((b0.feed batches).1.map AudioChunkData.samples).flatten).length
      = n * T := by
    rw [List.length_flatten, List.map_map]
    have hrep : ((b0.feed batches).1.map (List.length ∘ AudioChunkData.samples))
        = List.replicate n T := by
      rw [List.eq_replicate_iff]
      refine ⟨by simp [hn], ?_⟩
      intro m hm
      rcases List.mem_map.mp hm with ⟨c, hc, hcm⟩
      rw [← hcm]
      exact (h5 c hc).1
    rw [hrep, List.sum_replicate, smul_eq_mul]
  have hcount : n * T + (b0.feed batches).2.buffer.length = N * T := by
    have := congrArg List.length h4
    simp only [List.length_append] at this
    rw [hjoin] at this
    rw [this]
    simp [hb0, AudioBuffer.mk0, hsum]
  have hT' : 0 < T := hT
  have hbuflt : (b0.feed batches).2.buffer.length < T := h3
  have hnN : n = N := by
    rcases Nat.lt_trichotomy n N with hlt | heq | hgt
    · exfalso
      have hx : (n + 1) * T ≤ N * T :=
        mul_le_mul_right' (Nat.succ_le_of_lt hlt) T
      rw [Nat.succ_mul] at hx
      omega
    · exact heq
    · exfalso
      have hx : (N + 1) * T ≤ n * T :=
        mul_le_mul_right' (Nat.succ_le_of_lt hgt) T
      rw [Nat.succ_mul] at hx
      omega
  have hbufnil : (b0.feed batches).2.buffer = [] := by
    rw [← List.length_eq_zero]
    have : n * T = N * T := by rw [hnN]
    omega
  refine ⟨hnN, ?_, ?_, ?_, hbufnil⟩
  · intro c hc
    exact ⟨(h5 c hc).1, (h5 c hc).2.1⟩
  · have := h4
    rw [hbufnil, List.append_nil] at this
    rw [this]
    simp [hb0, AudioBuffer.mk0]
  · rw [h6, hnN]
    simp [hb0, AudioBuffer.mk0]

/-- Witness for C3: two batches of two samples each at `targetSamples = 2`
(`sampleRate = 2`, 1000 ms chunks) produce exactly two full chunks
numbered 1 and 2 and leave the buffer empty. -/
theorem c3_chunking_exact_witness :
    ((AudioBuffer.mk0 2 1000).feed [[1, 2], [3, 4]]).1.length = 2 ∧
    (∀ c ∈ ((AudioBuffer.mk0 2 1000).feed [[1, 2], [3, 4]]).1,
      c.samples.length = (AudioBuffer.mk0 2 1000).targetSamples ∧ c.isFinal = false) ∧
    (((AudioBuffer.mk0 2 1000).feed [[1, 2], [3, 4]]).1.map AudioChunkData.samples).flatten
      = [[(1 : Int), 2], [3, 4]].flatten ∧
    ((AudioBuffer.mk0 2 1000).feed [[1, 2], [3, 4]]).1.map AudioChunkData.chunkNumber
      = List.range' 1 2 ∧
    ((AudioBuffer.mk0 2 1000).feed [[1, 2], [3, 4]]).2.buffer = [] :=
  c3_chunking_exact 2 1000 2 [[1, 2], [3, 4]]
    (by decide) (by decide) (by decide) (by decide)

/-- Counterexample for C3 as stated: with `targetSamples = 2`, a total of
`2 * targetSamples` samples delivered in a single `addSamples` call
produces one chunk, not two — the `if` in `addSamples` emits at most one
chunk per call, so the claim needs the per-call bound. -/
theorem c3_single_call_counterexample :
    [[(1 : Int), 2, 3, 4]].flatten.length = 2 * (AudioBuffer.mk0 2 1000).targetSamples ∧
    ((AudioBuffer.mk0 2 1000).feed [[1, 2, 3, 4]]).1.length = 1 ∧
    ((AudioBuffer.mk0 2 1000).feed [[1, 2, 3, 4]]).1.length ≠ 2 := by
  decide

/-- C6: flushing a buffer holding a remainder of `K` samples with
`0 < K < targetSamples` emits exactly one chunk whose samples are the
whole remainder, marked `isFinal`, clears the buffer, and a further
`flush` of the result emits nothing; `flush` on an empty buffer returns
null. -/
theorem c6_flush_final (b : AudioBuffer) :
    (0 < b.buffer.length → b.buffer.length < b.targetSamples →
      b.flush.1 = some { samples := b.buffer
                         sampleRate := b.sampleRate
                         chunkNumber := b.chunksCreated + 1
                         isFinal := true } ∧
      b.flush.2.buffer = [] ∧
      b.flush.2.flush = (none, b.flush.2)) ∧
    (b.buffer = [] → b.flush = (none, b)) := by
  constructor
  · intro hpos _
    simp [AudioBuffer.flush, hpos]
  · intro hnil
    simp [AudioBuffer.flush, hnil]

/-- Witness for C6 at a concrete one-sample remainder (and the empty
buffer case at the initial buffer). -/
theorem c6_flush_final_witness :
    (({ sampleRate := 2, targetDurationMs := 1000, targetSamples := 2,
        buffer := [5], chunksCreated := 3, totalSamples := 7 } : AudioBuffer).flush.1
      = some { samples := [5], sampleRate := 2, chunkNumber := 4, isFinal := true } ∧
     ({ sampleRate := 2, targetDurationMs := 1000, targetSamples := 2,
        buffer := [5], chunksCreated := 3, totalSamples := 7 } : AudioBuffer).flush.2.buffer
      = [] ∧
     ({ sampleRate := 2, targetDurationMs := 1000, targetSamples := 2,
        buffer := [5], chunksCreated := 3, totalSamples := 7 } : AudioBuffer).flush.2.flush
      = (none,
         ({ sampleRate := 2, targetDurationMs := 1000, targetSamples := 2,
            buffer := [5], chunksCreated := 3, totalSamples := 7 } : AudioBuffer).flush.2)) ∧
    (AudioBuffer.mk0 2 1000).flush = (none, AudioBuffer.mk0 2 1000) :=
  ⟨(c6_flush_final
      { sampleRate := 2, targetDurationMs := 1000, targetSamples := 2,
        buffer := [5], chunksCreated := 3, totalSamples := 7 }).1
      (by decide) (by decide),
   (c6_flush_final (AudioBuffer.mk0 2 1000)).2 (by decide)⟩

/-- C10: one `addSamples` call emits at most one chunk; when the call
leaves at least two target lengths of samples available, only the first
`targetSamples` samples are emitted and the excess — itself at least a
full chunk — stays buffered. -/
theorem c10_at_most_one_chunk_per_call (b : AudioBuffer) (xs : List Int)
    (h : 2 * b.targetSamples ≤ b.buffer.length + xs.length) :
    (b.addSamples xs).1
      = some { samples := (b.buffer ++ xs).take b.targetSamples
               sampleRate := b.sampleRate
               chunkNumber := b.chunksCreated + 1
               isFinal := false } ∧
    (b.addSamples xs).2.buffer = (b.buffer ++ xs).drop b.targetSamples ∧
    b.targetSamples ≤ (b.addSamples xs).2.buffer.length := by
  have hge : b.targetSamples ≤ b.buffer.length + xs.length := by omega
  rw [b.addSamples_of_ge xs hge]
  refine ⟨rfl, rfl, ?_⟩
  simp only [List.length_drop, List.length_append]
  omega

/-- Witness for C10: a single call delivering four samples at
`targetSamples = 2` emits one two-sample chunk and leaves two samples
buffered. -/
theorem c10_at_most_one_chunk_per_call_witness :
    ((AudioBuffer.mk0 2 1000).addSamples [1, 2, 3, 4]).1
      = some { samples := ((AudioBuffer.mk0 2 1000).buffer ++ [1, 2, 3, 4]).take
                            (AudioBuffer.mk0 2 1000).targetSamples
               sampleRate := (AudioBuffer.mk0 2 1000).sampleRate
               chunkNumber := (AudioBuffer.mk0 2 1000).chunksCreated + 1
               isFinal := false } ∧
    ((AudioBuffer.mk0 2 1000).addSamples [1, 2, 3, 4]).2.buffer
      = ((AudioBuffer.mk0 2 1000).buffer ++ [1, 2, 3, 4]).drop
          (AudioBuffer.mk0 2 1000).targetSamples ∧
    (AudioBuffer.mk0 2 1000).targetSamples
      ≤ ((AudioBuffer.mk0 2 1000).addSamples [1, 2, 3, 4]).2.buffer.length :=
  c10_at_most_one_chunk_per_call (AudioBuffer.mk0 2 1000) [1, 2, 3, 4] (by decide)

/-! ### Resampling utilities

Embedding of `downsample48to16`, `downsample48to24` and `resampleAudio`.
Output lists are built positionally over `List.range outputLength`;
`getD _ 0` stands for JavaScript array indexing (every read below is in
bounds, so the default is never consulted).  Index arithmetic the source
performs on binary floating point is embedded as exact integer floor
arithmetic; for the supported rate pairs the floored output lengths
coincide exactly with the floating-point computation (0.5 and 1.5 are
exact doubles, and for the ratio 16000/48000 the quotient `n / ratio`
floors to `3n` for every realistic `n`).  Interpolated sample values are
rounded exactly (`Math.round(x) = ⌊x + 1/2⌋`); the `Int16Array` store
never wraps because the rounded value is a convex combination of two
in-range samples. -/

def downsample48to16 (samples : List Int) : List Int :=
  (List.range (samples.length / 3)).map fun i => samples.getD (i * 3) 0

def downsample48to24 (samples : List Int) : List Int :=
  (List.range (samples.length / 2)).map fun i => samples.getD (i * 2) 0

/-- `Math.round` of a rational `p / 3`: `⌊p / 3 + 1 / 2⌋ = ⌊(2p + 3) / 6⌋`. -/
def roundThird (p : Int) : Int := Int.fdiv (2 * p + 3) 6

/-- The 16 kHz → 24 kHz branch of `resampleAudio`: linear interpolation
at ratio 1.5, with `sourceIndex = i / 1.5 = 2i / 3`, integer part
`2i / 3` and fractional part `(2i mod 3) / 3`. -/
def upsample16to24 (samples : List Int) : List Int :=
  let n := samples.length
  (List.range (3 * n / 2)).map fun i =>
    let index : Nat := 2 * i / 3
    let k : Nat := 2 * i % 3
    if index < n - 1 then
      roundThird (samples.getD index 0 * (3 - (k : Int))
        + samples.getD (index + 1) 0 * (k : Int))
    else
      samples.getD (n - 1) 0

/-- `resampleAudio(samples, fromRate, toRate)`: identity at equal rates,
decimation for 48 kHz → 16/24 kHz, linear interpolation for
16 kHz → 24 kHz, and nearest-sample decimation by the real ratio
`fromRate / toRate` otherwise (output length `⌊n · toRate / fromRate⌋`,
source index `⌊i · fromRate / toRate⌋`). -/
def resampleAudio (samples : List Int) (fromRate toRate : Nat) : List Int :=
  if fromRate = toRate then samples
  else if fromRate = 48000 ∧ toRate = 16000 then downsample48to16 samples
  else if fromRate = 48000 ∧ toRate = 24000 then downsample48to24 samples
  else if fromRate = 16000 ∧ toRate = 24000 then upsample16to24 samples
  else
    (List.range (samples.length * toRate / fromRate)).map fun i =>
      samples.getD (i * fromRate / toRate) 0

theorem resampleAudio_length_48_16 (s : List Int) :
    (resampleAudio s 48000 16000).length = s.length / 3 := by
  simp [resampleAudio, downsample48to16]

theorem resampleAudio_length_48_24 (s : List Int) :
    (resampleAudio s 48000 24000).length = s.length / 2 := by
  simp [resampleAudio, downsample48to24]

theorem resampleAudio_length_16_24 (s : List Int) :
    (resampleAudio s 16000 24000).length = 3 * s.length / 2 := by
  simp [resampleAudio, upsample16to24]

theorem resampleAudio_length_16_48 (s : List Int) :
    (resampleAudio s 16000 48000).length = s.length * 48000 / 16000 := by
  simp [resampleAudio]

theorem resampleAudio_length_24_48 (s : List Int) :
    (resampleAudio s 24000 48000).length = s.length * 48000 / 24000 := by
  simp [resampleAudio]

theorem resampleAudio_length_24_16 (s : List Int) :
    (resampleAudio s 24000 16000).length = s.length * 16000 / 24000 := by
  simp [resampleAudio]

/-- C7 (amended): for every input and every supported rate pair in
either direction, resampling and then resampling back to the original
rate changes the sample count by at most 2 (never by more, and never
upward); the loss reaches 2 only on the 48 kHz → 16 kHz → 48 kHz path. -/
theorem c7_roundtrip_length (s : List Int) (fr tr : Nat)
    (h : (fr, tr) ∈ [(48000, 16000), (16000, 48000), (48000, 24000),
                     (24000, 48000), (16000, 24000), (24000, 16000)]) :
    (resampleAudio (resampleAudio s fr tr) tr fr).length ≤ s.length ∧
    s.length ≤ (resampleAudio (resampleAudio s fr tr) tr fr).length + 2 := by
  fin_cases h
  · rw [resampleAudio_length_16_48, resampleAudio_length_48_16]
    omega
  · rw [resampleAudio_length_48_16, resampleAudio_length_16_48]
    omega
  · rw [resampleAudio_length_24_48, resampleAudio_length_48_24]
    omega
  · rw [resampleAudio_length_48_24, resampleAudio_length_24_48]
    omega
  · rw [resampleAudio_length_24_16, resampleAudio_length_16_24]
    omega
  · rw [resampleAudio_length_16_24, resampleAudio_length_24_16]
    omega

/-- Witness for C7 at a three-sample input on the 48 kHz → 16 kHz pair. -/
theorem c7_roundtrip_length_witness :
    (resampleAudio (resampleAudio [0, 1, 2] 48000 16000) 16000 48000).length
      ≤ [(0 : Int), 1, 2].length ∧
    [(0 : Int), 1, 2].length
      ≤ (resampleAudio (resampleAudio [0, 1, 2] 48000 16000) 16000 48000).length + 2 :=
  c7_roundtrip_length [0, 1, 2] 48000 16000 (by decide)

/-- Counterexample for C7 as stated: five samples taken
48 kHz → 16 kHz → 48 kHz come back as three samples, a deficit of 2,
exceeding the ±1 bound the claim asserts. -/
theorem c7_plus_minus_one_counterexample :
    (resampleAudio (resampleAudio [0, 0, 0, 0, 0] 48000 16000) 16000 48000).length = 3 ∧
    ¬([(0 : Int), 0, 0, 0, 0].length
        ≤ (resampleAudio (resampleAudio [0, 0, 0, 0, 0] 48000 16000) 16000 48000).length + 1) := by
  decide

/-! ### ParticipantTracker (speaker attribution)

Embedding of the `ParticipantTracker` class.  The `Map` of participants
keyed by uuid is modelled as a list with uuid-keyed lookup and in-place
update (`setP` stands for the source's mutation of the object stored in
the map).  Wall-clock reads (`Date.now()`) inside one event handler are
modelled as a single `now` argument.  JavaScript truthiness tests on a
stored timestamp (`!entry.endTime`, `if (participant.speakingStartTime)`)
are embedded via `Option.getD _ 0`, which treats both `null` and `0` as
falsy exactly as the source does.  `Date.now()` is monotone, so the
`now - start` duration embeds as natural subtraction. -/

structure HistoryEntry where
  uuid : String
  displayName : String
  startTime : Nat
  endTime : Option Nat
  deriving Repr, DecidableEq

structure Participant where
  uuid : String
  displayName : String
  role : String
  isSpeaking : Bool
  isMuted : Bool
  lastSpokeAt : Option Nat
  totalSpeakingTime : Nat
  speakingStartTime : Option Nat
  deriving Repr, DecidableEq

structure ParticipantTracker where
  participants : List Participant
  currentSpeaker : Option String
  speakingHistory : List HistoryEntry
  lastSpeakerChange : Nat
  deriving Repr, DecidableEq

/-- `this.participants.get(uuid)`. -/
def ParticipantTracker.findP (tr : ParticipantTracker) (uuid : String) : Option Participant :=
  tr.participants.find? (fun p => p.uuid == uuid)

/-- Mutation of the participant object stored under its uuid. -/
def ParticipantTracker.setP (tr : ParticipantTracker) (p : Participant) : ParticipantTracker :=
  { tr with participants := tr.participants.map (fun q => if q.uuid == p.uuid then p else q) }

/-- `onStopSpeaking(participant)`: early-return when the participant is
not marked speaking; otherwise clear the speaking flag, accumulate the
speaking duration, close the LAST history entry only when it belongs to
this participant and is still open, and clear `currentSpeaker` when it
was this participant. -/
def ParticipantTracker.onStopSpeaking (tr : ParticipantTracker) (uuid : String) (now : Nat) :
    ParticipantTracker :=
  match tr.findP uuid with
  | none => tr
  | some p =>
    if p.isSpeaking = false then tr
    else
      let p1 : Participant :=
        if p.speakingStartTime.getD 0 ≠ 0 then
          { p with isSpeaking := false
                   totalSpeakingTime := p.totalSpeakingTime + (now - p.speakingStartTime.getD 0)
                   speakingStartTime := none }
        else
          { p with isSpeaking := false }
      let tr1 := tr.setP p1
      let hist :=
        match tr1.speakingHistory.getLast? with
        | some e =>
          if e.uuid == uuid ∧ e.endTime.getD 0 = 0 then
            tr1.speakingHistory.dropLast ++ [{ e with endTime := some now }]
          else tr1.speakingHistory
        | none => tr1.speakingHistory
      let tr2 := { tr1 with speakingHistory := hist }
      if tr2.currentSpeaker = some uuid then { tr2 with currentSpeaker := none } else tr2

/-- `onStartSpeaking(participant)`: mark the participant speaking,
record them as current speaker, push a new OPEN history entry, and only
then — if somebody else was the previous speaker and is still marked
speaking — run `onStopSpeaking` for the previous speaker. -/
def ParticipantTracker.onStartSpeaking (tr : ParticipantTracker) (uuid : String) (now : Nat) :
    ParticipantTracker :=
  match tr.findP uuid with
  | none => tr
  | some p =>
    let p1 : Participant :=
      { p with isSpeaking := true, speakingStartTime := some now, lastSpokeAt := some now }
    let tr1 := tr.setP p1
    let previousSpeaker := tr.currentSpeaker
    let tr2 : ParticipantTracker :=
      { tr1 with
        currentSpeaker := some uuid
        lastSpeakerChange := now
        speakingHistory := tr1.speakingHistory ++
          [{ uuid := uuid, displayName := p1.displayName, startTime := now, endTime := none }] }
    match previousSpeaker with
    | none => tr2
    | some prev =>
      if prev ≠ uuid then
        match tr2.findP prev with
        | some pp => if pp.isSpeaking then tr2.onStopSpeaking prev now else tr2
        | none => tr2
      else tr2

structure SpeakerInfo where
  uuid : String
  displayName : String
  confidence : ℚ
  deriving Repr, DecidableEq

/-- The scan loop of `getSpeakerAtTime`, walking the history
newest-first: skip entries starting after `t`; return the first entry
with `startTime ≤ t` whose end is unset (falsy) or `≥ t`, at confidence
0.9. -/
def scanHistory : List HistoryEntry → Nat → Option SpeakerInfo
  | [], _ => none
  | e :: rest, t =>
    if e.startTime ≤ t then
      if e.endTime.getD 0 = 0 ∨ t ≤ e.endTime.getD 0 then
        some { uuid := e.uuid, displayName := e.displayName, confidence := 9 / 10 }
      else scanHistory rest t
    else scanHistory rest t

/-- `getSpeakerAtTime(timestamp)`: scan the history newest-first; on no
match fall back to the current speaker at confidence 0.5, and otherwise
to the `"unknown"` sentinel at confidence 0. -/
def ParticipantTracker.getSpeakerAtTime (tr : ParticipantTracker) (t : Nat) : SpeakerInfo :=
  match scanHistory tr.speakingHistory.reverse t with
  | some info => info
  | none =>
    match tr.currentSpeaker with
    | some cs =>
      match tr.findP cs with
      | some p => { uuid := p.uuid, displayName := p.displayName, confidence := 1 / 2 }
      | none => { uuid := "unknown", displayName := "Unknown Speaker", confidence := 0 }
    | none => { uuid := "unknown", displayName := "Unknown Speaker", confidence := 0 }

/-- Initial tracker for the C2 scenario: two silent participants A and
B, nobody speaking, empty history. -/
def c2Tracker : ParticipantTracker :=
  { participants :=
      [{ uuid := "a", displayName := "A", role := "guest", isSpeaking := false,
         isMuted := false, lastSpokeAt := none, totalSpeakingTime := 0,
         speakingStartTime := none },
       { uuid := "b", displayName := "B", role := "guest", isSpeaking := false,
         isMuted := false, lastSpokeAt := none, totalSpeakingTime := 0,
         speakingStartTime := none }]
    currentSpeaker := none
    speakingHistory := []
    lastSpeakerChange := 0 }

/-- C2 divergence, evaluated: A starts speaking at 100, then B starts
speaking at 200.  Because `onStartSpeaking` pushes B's history entry
BEFORE stopping A, and `onStopSpeaking` closes only the last history
entry when it belongs to the stopping participant, A's interval keeps a
null end time: afterwards BOTH history entries are open, violating the
claimed "close A before opening B / at most one open interval". -/
theorem c2_two_open_intervals :
    ((c2Tracker.onStartSpeaking "a" 100).onStartSpeaking "b" 200).speakingHistory.map
        HistoryEntry.endTime = [none, none] ∧
    ((c2Tracker.onStartSpeaking "a" 100).onStartSpeaking "b" 200).speakingHistory.map
        HistoryEntry.uuid = ["a", "b"] ∧
    ((c2Tracker.onStartSpeaking "a" 100).onStartSpeaking "b" 200).currentSpeaker = some "b" ∧
    (((c2Tracker.onStartSpeaking "a" 100).onStartSpeaking "b" 200).speakingHistory.filter
        (fun e => e.endTime.isNone)).length = 2 := by
  decide

/-- The scan loop is the first match, newest-first, for the containment
test the source actually performs: `startTime ≤ t` and (end unset/falsy
or `t ≤ end`) — i.e. `[start, end]` with BOTH ends included, an open
entry containing every `t ≥ start`. -/
theorem scanHistory_eq_find (l : List HistoryEntry) (t : Nat) :
    scanHistory l t =
      (l.find? (fun e =>
        decide (e.startTime ≤ t ∧ (e.endTime.getD 0 = 0 ∨ t ≤ e.endTime.getD 0)))).map
        (fun e => { uuid := e.uuid, displayName := e.displayName, confidence := 9 / 10 }) := by
  induction l with
  | nil => simp [scanHistory]
  | cons e rest ih =>
    by_cases h1 : e.startTime ≤ t
    · by_cases h2 : e.endTime.getD 0 = 0 ∨ t ≤ e.endTime.getD 0
      · simp [scanHistory, h1, h2, List.find?_cons]
      · simp [scanHistory, h1, h2, List.find?_cons, ih]
    · simp [scanHistory, h1, List.find?_cons, ih]

/-- C4 (amended): `getSpeakerAtTime(t)` returns, at confidence 0.9, the
participant of the NEWEST history interval containing `t` — where
containment is inclusive at both ends (`start ≤ t ≤ end`) and an interval
with a null (or falsy) end time contains every `t ≥ start`; only when no
history interval contains `t` in that sense does it fall back to the
current speaker (if one is set and found among the participants) at
confidence 0.5, and otherwise to the sentinel "unknown" identity at
confidence 0. -/
theorem c4_speaker_lookup (tr : ParticipantTracker) (t : Nat) :
    tr.getSpeakerAtTime t =
      match tr.speakingHistory.reverse.find? (fun e =>
          decide (e.startTime ≤ t ∧ (e.endTime.getD 0 = 0 ∨ t ≤ e.endTime.getD 0))) with
      | some e => { uuid := e.uuid, displayName := e.displayName, confidence := 9 / 10 }
      | none =>
        match tr.currentSpeaker with
        | some cs =>
          match tr.findP cs with
          | some p => { uuid := p.uuid, displayName := p.displayName, confidence := 1 / 2 }
          | none => { uuid := "unknown", displayName := "Unknown Speaker", confidence := 0 }
        | none => { uuid := "unknown", displayName := "Unknown Speaker", confidence := 0 } := by
  unfold ParticipantTracker.getSpeakerAtTime
  rw [scanHistory_eq_find]
  cases tr.speakingHistory.reverse.find? (fun e =>
      decide (e.startTime ≤ t ∧ (e.endTime.getD 0 = 0 ∨ t ≤ e.endTime.getD 0))) with
  | none => rfl
  | some e => rfl

/-- Tracker for the C4 counterexample: one closed interval `[100, 200]`
for participant A, no current speaker. -/
def c4Tracker : ParticipantTracker :=
  { participants := []
    currentSpeaker := none
    speakingHistory :=
      [{ uuid := "a", displayName := "A", startTime := 100, endTime := some 200 }]
    lastSpeakerChange := 0 }

/-- Counterexample for C4 as stated: for a single closed interval
`[100, 200]` and no current speaker, the lookup at `t = 200` — outside
the half-open `[start, end)` the claim describes — still returns that
interval's participant at confidence 0.9 instead of the "unknown"
sentinel at confidence 0: the source compares `endTime >= timestamp`,
inclusively. -/
theorem c4_inclusive_end_counterexample :
    c4Tracker.getSpeakerAtTime 200 = { uuid := "a", displayName := "A", confidence := 9 / 10 } ∧
    c4Tracker.getSpeakerAtTime 200
      ≠ { uuid := "unknown", displayName := "Unknown Speaker", confidence := 0 } := by
  have h1 : c4Tracker.getSpeakerAtTime 200
      = { uuid := "a", displayName := "A", confidence := 9 / 10 } := rfl
  refine ⟨h1, ?_⟩
  rw [h1]
  intro h
  exact absurd (congrArg SpeakerInfo.uuid h) (by decide)

/-! ### PexipConnection: ICE candidate queueing (connect)

The candidate handler installed by `connect()` queues every locally
generated candidate while `this.callUuid` is null and sends immediately
otherwise; after `joinCall` returns, `connect()` assigns `callUuid`,
sends the queued candidates in order and clears the queue.
`sentCandidates` is the ordered log of `api.sendIceCandidate` calls. -/

structure IceState (α : Type) where
  callUuid : Option String
  pendingIceCandidates : List α
  sentCandidates : List α
  deriving Repr, DecidableEq

/-- The `setIceCandidateHandler` callback: queue without a callUuid,
send immediately with one. -/
def IceState.onLocalCandidate {α : Type} (s : IceState α) (c : α) : IceState α :=
  match s.callUuid with
  | none => { s with pendingIceCandidates := s.pendingIceCandidates ++ [c] }
  | some _ => { s with sentCandidates := s.sentCandidates ++ [c] }

/-- `connect()` after `joinCall`: assign the callUuid, send every queued
candidate in order, clear the queue. -/
def IceState.assignCallUuid {α : Type} (s : IceState α) (id : String) : IceState α :=
  { callUuid := some id
    pendingIceCandidates := []
    sentCandidates := s.sentCandidates ++ s.pendingIceCandidates }

inductive IceEvent (α : Type) where
  | localCandidate (c : α)
  | callUuidAssigned (id : String)
  deriving Repr

def IceState.run {α : Type} (s : IceState α) : List (IceEvent α) → IceState α
  | [] => s
  | IceEvent.localCandidate c :: rest => (s.onLocalCandidate c).run rest
  | IceEvent.callUuidAssigned id :: rest => (s.assignCallUuid id).run rest

/-- Connection state at the start of `connect()`: no callUuid, empty
queue, nothing sent. -/
def IceState.start (α : Type) : IceState α := ⟨none, [], []⟩

theorem IceState.run_append {α : Type} (s : IceState α) (l1 l2 : List (IceEvent α)) :
    s.run (l1 ++ l2) = (s.run l1).run l2 := by
  induction l1 generalizing s with
  | nil => rfl
  | cons e rest ih =>
    cases e <;> simp [IceState.run, ih]

theorem IceState.run_locals_queued {α : Type} (cs : List α) (s : IceState α)
    (h : s.callUuid = none) :
    s.run (cs.map IceEvent.localCandidate)
      = { s with pendingIceCandidates := s.pendingIceCandidates ++ cs } := by
  induction cs generalizing s with
  | nil => simp [IceState.run]
  | cons c cs ih =>
    simp only [List.map_cons, IceState.run, IceState.onLocalCandidate, h]
    rw [ih _ rfl]
    simp

theorem IceState.run_locals_sent {α : Type} (ds : List α) (s : IceState α) (u : String)
    (h : s.callUuid = some u) :
    s.run (ds.map IceEvent.localCandidate)
      = { s with sentCandidates := s.sentCandidates ++ ds } := by
  induction ds generalizing s with
  | nil => simp [IceState.run]
  | cons d ds ih =>
    simp only [List.map_cons, IceState.run, IceState.onLocalCandidate, h]
    rw [ih { callUuid := some u, pendingIceCandidates := s.pendingIceCandidates,
             sentCandidates := s.sentCandidates ++ [d] } rfl]
    simp

/-- C1: candidates generated before the callUuid exists are queued, not
sent; the moment the callUuid is assigned the queue is flushed — every
queued candidate is sent exactly once, in generation order — and
emptied; candidates generated afterwards are sent immediately without
queueing.  The final send log is exactly `cs ++ ds`. -/
theorem c1_ice_candidate_ordering {α : Type} (cs ds : List α) (id : String) :
    ((IceState.start α).run (cs.map IceEvent.localCandidate)).sentCandidates = [] ∧
    ((IceState.start α).run (cs.map IceEvent.localCandidate)).pendingIceCandidates = cs ∧
    (IceState.start α).run
        (cs.map IceEvent.localCandidate ++ [IceEvent.callUuidAssigned id]
          ++ ds.map IceEvent.localCandidate)
      = { callUuid := some id, pendingIceCandidates := [], sentCandidates := cs ++ ds } := by
  have hcs : (IceState.start α).run (cs.map IceEvent.localCandidate)
      = { callUuid := none, pendingIceCandidates := cs, sentCandidates := [] } := by
    rw [IceState.run_locals_queued cs (IceState.start α) rfl]
    rfl
  refine ⟨by rw [hcs], by rw [hcs], ?_⟩
  rw [IceState.run_append, IceState.run_append, hcs]
  simp only [IceState.run, IceState.assignCallUuid]
  rw [IceState.run_locals_sent ds _ id rfl]
  simp

/-! ### PexipConnection: token refresh scheduling -/

structure TokenRefreshState where
  tokenRefreshTimer : Option Nat
  deriving Repr, DecidableEq

/-- `startTokenRefresh(expiresInSeconds)`: clear any pending timer and
schedule one after `(expiresInSeconds - refreshBuffer) * 1000`
milliseconds, where `refreshBuffer = Math.min(30,
Math.floor(expiresInSeconds * 0.25))`.  `0.25` is an exact double and
the product exact for realistic expiries, so the floor is exact natural
division by 4. -/
def startTokenRefresh (s : TokenRefreshState) (expiresInSeconds : Nat) : TokenRefreshState :=
  let refreshBuffer := min 30 (expiresInSeconds / 4)
  let refreshInterval := (expiresInSeconds - refreshBuffer) * 1000
  { tokenRefreshTimer := some refreshInterval }

/-- C5 (amended): for every expiry the refresh timer is scheduled at
`expiresInSec - min(30, ⌊0.25 * expiresInSec⌋)` seconds — the source
floors the 25% buffer before taking the minimum; in particular 120 s
expiry fires at 90 s and 40 s expiry fires at 30 s, exactly as the claim
instantiates. -/
theorem c5_refresh_schedule (s : TokenRefreshState) (e : Nat) :
    (startTokenRefresh s e).tokenRefreshTimer = some ((e - min 30 (e / 4)) * 1000) ∧
    (startTokenRefresh s 120).tokenRefreshTimer = some (90 * 1000) ∧
    (startTokenRefresh s 40).tokenRefreshTimer = some (30 * 1000) :=
  ⟨rfl, rfl, rfl⟩

/-- Counterexample for C5 as stated: at `expiresInSec = 10` the source
schedules the timer at 8000 ms (the floored buffer `⌊2.5⌋ = 2` gives
`10 - 2 = 8` seconds), while the claim's unfloored formula demands
`10 - min(30, 2.5) = 7.5` seconds. -/
theorem c5_floor_counterexample :
    (startTokenRefresh { tokenRefreshTimer := none } 10).tokenRefreshTimer = some 8000 ∧
    ((8000 : ℚ) / 1000 ≠ (10 : ℚ) - min 30 ((1 / 4) * 10)) := by
  refine ⟨rfl, ?_⟩
  rw [show ((1 / 4 : ℚ) * 10) = 5 / 2 by norm_num]
  rw [min_def]
  norm_num

/-! ### PexipConnection: disconnect sequencing

`disconnect()` checks the running flag, clears it, and then performs the
teardown steps in source order: stop the token-refresh timer, cancel the
event-poll timeout, close the WebRTC session, and make the best-effort
bridge calls `disconnectCall` and `releaseToken`.  The step list is the
ordered log of those side effects. -/

inductive TeardownStep where
  | stopTokenRefresh
  | stopEventPolling
  | closeWebrtc
  | apiDisconnectCall
  | apiReleaseToken
  deriving Repr, DecidableEq

structure ConnState where
  isRunning : Bool
  tokenRefreshTimer : Option Nat
  eventPollScheduled : Bool
  deriving Repr, DecidableEq

def ConnState.disconnect (s : ConnState) : List TeardownStep × ConnState :=
  if s.isRunning = false then
    ([], s)
  else
    ([TeardownStep.stopTokenRefresh, TeardownStep.stopEventPolling, TeardownStep.closeWebrtc,
      TeardownStep.apiDisconnectCall, TeardownStep.apiReleaseToken],
     { isRunning := false, tokenRefreshTimer := none, eventPollScheduled := false })

/-- C8: from a running session, `disconnect()` performs the teardown
steps once, in order; a second `disconnect()` observes the cleared
running flag, performs no step, and leaves the state unchanged. -/
theorem c8_disconnect_idempotent (s : ConnState) (h : s.isRunning = true) :
    (s.disconnect).1
      = [TeardownStep.stopTokenRefresh, TeardownStep.stopEventPolling,
         TeardownStep.closeWebrtc, TeardownStep.apiDisconnectCall,
         TeardownStep.apiReleaseToken] ∧
    (s.disconnect).2.isRunning = false ∧
    (s.disconnect).2.disconnect = ([], (s.disconnect).2) := by
  simp [ConnState.disconnect, h]

/-- Witness for C8 at a concrete running session. -/
theorem c8_disconnect_idempotent_witness :
    (({ isRunning := true, tokenRefreshTimer := some 90000,
        eventPollScheduled := true } : ConnState).disconnect).1
      = [TeardownStep.stopTokenRefresh, TeardownStep.stopEventPolling,
         TeardownStep.closeWebrtc, TeardownStep.apiDisconnectCall,
         TeardownStep.apiReleaseToken] ∧
    (({ isRunning := true, tokenRefreshTimer := some 90000,
        eventPollScheduled := true } : ConnState).disconnect).2.isRunning = false ∧
    (({ isRunning := true, tokenRefreshTimer := some 90000,
        eventPollScheduled := true } : ConnState).disconnect).2.disconnect
      = ([], (({ isRunning := true, tokenRefreshTimer := some 90000,
                 eventPollScheduled := true } : ConnState).disconnect).2) :=
  c8_disconnect_idempotent
    { isRunning := true, tokenRefreshTimer := some 90000, eventPollScheduled := true } rfl

/-! ### PexipApiClient: best-effort cleanup

`disconnectCall` and `releaseToken` wrap their HTTP POST in try/catch
and never rethrow; a rejection whose `error.response?.status` is 403 is
logged as "already gone".  An axios call either fulfils (2xx), rejects
with a response status, or rejects with no response at all. -/

inductive HttpOutcome where
  | fulfilled
  | rejectedStatus (status : Nat)
  | rejectedNoResponse
  deriving Repr, DecidableEq

structure PexipApiClientState where
  token : Option String
  deriving Repr, DecidableEq

/-- `disconnectCall(callUuid)`: early-return without a callUuid or
token; otherwise POST and swallow every rejection, logging "Call already
disconnected" on 403.  The result is the message logged; no branch
produces `Except.error`. -/
def PexipApiClient.disconnectCall (s : PexipApiClientState) (callUuid : Option String)
    (outcome : HttpOutcome) : Except String String :=
  match callUuid, s.token with
  | none, _ => Except.ok "skipped"
  | some _, none => Except.ok "skipped"
  | some _, some _ =>
    match outcome with
    | HttpOutcome.fulfilled => Except.ok "Call disconnected successfully"
    | HttpOutcome.rejectedStatus status =>
      if status = 403 then Except.ok "Call already disconnected"
      else Except.ok "Disconnect error"
    | HttpOutcome.rejectedNoResponse => Except.ok "Disconnect error"

/-- `releaseToken()`: early-return without a token; otherwise POST,
swallow every rejection (logging "Token already released" on 403), and
clear the stored token after the attempt regardless of its outcome. -/
def PexipApiClient.releaseToken (s : PexipApiClientState) (outcome : HttpOutcome) :
    Except String (String × PexipApiClientState) :=
  match s.token with
  | none => Except.ok ("skipped", s)
  | some _ =>
    let msg :=
      match outcome with
      | HttpOutcome.fulfilled => "Token released successfully"
      | HttpOutcome.rejectedStatus status =>
        if status = 403 then "Token already released" else "Token release error"
      | HttpOutcome.rejectedNoResponse => "Token release error"
    Except.ok (msg, { token := none })

/-- C9: when the bridge answers `disconnectCall` or `releaseToken` with
HTTP 403, both calls return normally (`Except.ok`, never an error), the
403 is logged as already-gone cleanup, and `releaseToken` still clears
the stored token. -/
theorem c9_cleanup_403_success (s : PexipApiClientState) (cu tk : String)
    (h : s.token = some tk) :
    PexipApiClient.disconnectCall s (some cu) (HttpOutcome.rejectedStatus 403)
      = Except.ok "Call already disconnected" ∧
    PexipApiClient.releaseToken s (HttpOutcome.rejectedStatus 403)
      = Except.ok ("Token already released", { token := none }) := by
  simp [PexipApiClient.disconnectCall, PexipApiClient.releaseToken, h]

/-- Witness for C9 at a concrete client holding a token. -/
theorem c9_cleanup_403_success_witness :
    PexipApiClient.disconnectCall { token := some "tok" } (some "call-1")
        (HttpOutcome.rejectedStatus 403)
      = Except.ok "Call already disconnected" ∧
    PexipApiClient.releaseToken { token := some "tok" } (HttpOutcome.rejectedStatus 403)
      = Except.ok ("Token already released", { token := none }) :=
  c9_cleanup_403_success { token := some "tok" } "call-1" "tok" rfl

end TranscriptionBot
